import Mathlib

/-!
Verification of the core pricing and rebalancing engine of the Lifinity V2
AMM (src/reverse-engineer-lifinity/lifinity_v2_human_readable.rs) against
its natural-language specification.

The Rust source works on `u64` values.  The shallow embedding uses `Nat`
with an explicit `% U64` wherever a `u64` multiplication or addition can
wrap around (release-build semantics); a `u64` division by zero, which
aborts a Rust program, is modelled by returning `none`.  Rust `u64`
subtractions are modelled by truncated `Nat` subtraction; theorems that
depend on a subtraction carry hypotheses placing them in the region where
the two semantics agree.  Fields of the on-chain accounts that are pure
host plumbing (public keys, PDA bump seed, padding) are omitted from the
state model; every arithmetic field of `PoolState` is kept under its
source name.
-/

/-- `2 ^ 64`, the modulus of Rust `u64` arithmetic. -/
def U64 : Nat := 18446744073709551616

/-- Error outcomes of the engine.  The source signals errors through
`ProgramError::Custom(n)`; the constructors record the codes actually
present in the source.  `oracleStale`, `oracleInvalid` and
`alreadyInitialized` are error kinds named by the specification; they are
included so that statements about them can be expressed, and no code path
of the model produces them.  `mathAbort` stands for a Rust arithmetic
abort (overflow in a checked build, or division by zero). -/
inductive SwapError where
  | slippageExceeded      -- Custom(1)
  | exceedsMaxInput       -- Custom(2)
  | unauthorized          -- Custom(3), Custom(4), Custom(5)
  | insufficientLiquidity -- Custom(6)
  | oracleStale           -- named by the spec only
  | oracleInvalid         -- named by the spec only
  | alreadyInitialized    -- named by the spec only
  | mathAbort             -- arithmetic abort
deriving DecidableEq

/-- Decidable equality of `Except` results, used to evaluate closed
statements about engine outcomes. -/
instance {ε α : Type} [DecidableEq ε] [DecidableEq α] : DecidableEq (Except ε α) := fun x y =>
  match x, y with
  | .ok a, .ok b =>
    if h : a = b then .isTrue (by rw [h])
    else .isFalse (fun hh => h (Except.ok.inj hh))
  | .error e, .error f =>
    if h : e = f then .isTrue (by rw [h])
    else .isFalse (fun hh => h (Except.error.inj hh))
  | .ok _, .error _ => .isFalse (fun hh => Except.noConfusion hh)
  | .error _, .ok _ => .isFalse (fun hh => Except.noConfusion hh)

/-- The arithmetic and flag fields of the source `PoolState` struct.
The five `Pubkey` fields, the PDA bump seed and the padding are host
plumbing and carry no arithmetic content, so they are omitted. -/
structure PoolState where
  is_initialized : Bool
  concentration_factor : Nat
  inventory_exponent : Nat
  rebalance_threshold : Nat
  reserves_a : Nat
  reserves_b : Nat
  virtual_reserves_a : Nat
  virtual_reserves_b : Nat
  last_rebalance_price : Nat
  last_rebalance_slot : Nat
  fee_numerator : Nat
  fee_denominator : Nat
  cumulative_fees_a : Nat
  cumulative_fees_b : Nat
  oracle_staleness_threshold : Nat
deriving DecidableEq

/-- The oracle sample.  The source reads the eight little-endian price
bytes of the account; the publish slot is present in the account data but
the source never reads it, which the model makes visible by carrying the
field. -/
structure Oracle where
  price : Nat
  publish_slot : Nat
deriving DecidableEq

/-- Parameters of the `InitializePool` instruction. -/
structure InitParams where
  concentration_factor : Nat
  inventory_exponent : Nat
  rebalance_threshold : Nat
  fee_numerator : Nat
  fee_denominator : Nat
  oracle_staleness_threshold : Nat
deriving DecidableEq

/-- The source's `get_current_slot` is hard-coded to `0`. -/
def get_current_slot : Nat := 0

/-- The `while y < x { x = y; y = (x + n / x) / 2 }` loop of
`integer_sqrt`.  The state is the pair `(x, y)`; the fuel is an upper
bound on the number of iterations, justified because the iterate `x`
strictly decreases on every executed step (each recursive call replaces
`x` by `y` with `y < x`), so `fuel = x` always suffices.  A step whose new
iterate is `0` would make the Rust expression `n / x` divide by zero and
abort, which the model renders as `none`. -/
def sqrtLoop (n : Nat) : Nat → Nat → Nat → Option Nat
  | 0, _, _ => none
  | fuel + 1, x, y =>
    if y < x then
      if y = 0 then none
      else sqrtLoop n fuel y ((y + n / y) % U64 / 2)
    else some x

/-- `integer_sqrt` from the source: Newton's method seeded at `x = n`,
`y = (x + 1) / 2`.  The increment `x + 1` is a `u64` addition and wraps at
`n = u64::MAX`, hence the `% U64`. -/
def integer_sqrt (n : Nat) : Option Nat :=
  if n = 0 then some 0
  else sqrtLoop n n n ((n + 1) % U64 / 2)

/-- `apply_inventory_adjustment` from the source.  No clamping is applied
to `adjustment`.  The subtraction `10000 - (10000 - price_ratio) * z / 10000`
is a `u64` subtraction that wraps when the subtrahend exceeds 10000, which
the model expresses as `(10000 + U64 - t) % U64`; both branch guards keep
the inner subtractions on `price_ratio` exact. -/
def apply_inventory_adjustment (base_output inventory_exponent current_price reference_price : Nat) : Nat :=
  if reference_price = 0 then base_output
  else
    let price_ratio_bp := current_price * 10000 % U64 / reference_price
    if price_ratio_bp > 10000 then
      let adjustment := 10000 + (price_ratio_bp - 10000) * inventory_exponent % U64 / 10000
      base_output * adjustment % U64 / 10000
    else
      let adjustment := (10000 + U64 - (10000 - price_ratio_bp) * inventory_exponent % U64 / 10000) % U64
      base_output * adjustment % U64 / 10000

/-- The unclamped adjustment factor computed inside
`apply_inventory_adjustment` (the value the source calls `adjustment`),
factored out so that statements can refer to it. -/
def inventory_adjustment_factor (inventory_exponent current_price reference_price : Nat) : Nat :=
  let price_ratio_bp := current_price * 10000 % U64 / reference_price
  if price_ratio_bp > 10000 then
    10000 + (price_ratio_bp - 10000) * inventory_exponent % U64 / 10000
  else
    (10000 + U64 - (10000 - price_ratio_bp) * inventory_exponent % U64 / 10000) % U64

/-- `calculate_swap_exact_input` from the source.  The source's `Result`
return type has no error exit in this function, so the model returns the
pair directly.  The source also binds a dead variable
`k = reserve_in * reserve_out` which is never used and is dropped here.
The subtraction `amount_in - fee_amount` matches the source's `u64`
subtraction whenever `fee_amount ≤ amount_in`. -/
def calculate_swap_exact_input (pool : PoolState) (amount_in : Nat) (is_base_input : Bool) (oracle_price : Nat) : Nat × Nat :=
  let fee_amount := amount_in * pool.fee_numerator % U64 / pool.fee_denominator
  let amount_in_after_fee := amount_in - fee_amount
  let (reserve_in, reserve_out) :=
    if is_base_input then (pool.virtual_reserves_a, pool.virtual_reserves_b)
    else (pool.virtual_reserves_b, pool.virtual_reserves_a)
  let numerator := amount_in_after_fee * reserve_out % U64
  let denominator := (reserve_in + amount_in_after_fee) % U64
  let amount_out := numerator / denominator
  let inventory_adjusted_output :=
    apply_inventory_adjustment amount_out pool.inventory_exponent oracle_price pool.last_rebalance_price
  (inventory_adjusted_output, fee_amount)

/-- `calculate_swap_exact_output` from the source.  No inventory
adjustment appears anywhere in this function.  `reserve_out - amount_out`
is a `u64` subtraction; when `amount_out > reserve_out` Rust aborts while
the truncated model lands in the `denominator = 0` error branch. -/
def calculate_swap_exact_output (pool : PoolState) (amount_out : Nat) (is_base_output : Bool) (oracle_price : Nat) : Except SwapError (Nat × Nat) :=
  let (reserve_out, reserve_in) :=
    if is_base_output then (pool.virtual_reserves_a, pool.virtual_reserves_b)
    else (pool.virtual_reserves_b, pool.virtual_reserves_a)
  let numerator := reserve_in * amount_out % U64
  let denominator := reserve_out - amount_out
  if denominator = 0 then .error .insufficientLiquidity
  else
    let amount_in_before_fee := numerator / denominator
    let fee_amount := amount_in_before_fee * pool.fee_numerator % U64
      / (pool.fee_denominator - pool.fee_numerator)
    .ok ((amount_in_before_fee + fee_amount) % U64, fee_amount)

/-- `should_rebalance` from the source. -/
def should_rebalance (pool : PoolState) (oracle_price : Nat) : Bool :=
  if pool.last_rebalance_price = 0 then true
  else
    let price_change :=
      if oracle_price > pool.last_rebalance_price then
        (oracle_price - pool.last_rebalance_price) * 10000 % U64 / pool.last_rebalance_price
      else
        (pool.last_rebalance_price - oracle_price) * 10000 % U64 / pool.last_rebalance_price
    price_change > pool.rebalance_threshold

/-- `perform_rebalance` from the source.  `k` is a `u64` product, hence
the `% U64`.  `sqrt_k` and `sqrt_price` are integer square roots of
values below `2 ^ 64`, so they are below `2 ^ 32` and the products
`sqrt_k * 10000` and `sqrt_k * sqrt_price` cannot wrap; no modulus is
needed on them.  A zero `sqrt_price` would make the Rust division abort. -/
def perform_rebalance (pool : PoolState) (oracle_price : Nat) : Option PoolState :=
  let k := pool.virtual_reserves_a * pool.virtual_reserves_b % U64
  match integer_sqrt k, integer_sqrt oracle_price with
  | some sqrt_k, some sqrt_price =>
    if sqrt_price = 0 then none
    else some { pool with
      virtual_reserves_a := sqrt_k * 10000 / sqrt_price,
      virtual_reserves_b := sqrt_k * sqrt_price / 10000,
      last_rebalance_price := oracle_price,
      last_rebalance_slot := get_current_slot }
  | _, _ => none

/-- `get_oracle_price` from the source: it deserializes the eight price
bytes and returns them.  There is no staleness check and no zero-price
check; the publish slot is never read. -/
def get_oracle_price (oracle : Oracle) : Except SwapError Nat :=
  .ok oracle.price

/-- `process_swap_exact_input` from the source, restricted to the state
transition (the SPL token transfers and the serialization back into the
account are host plumbing).  The reserve updates are the source's
`+=`/`-=` statements; the decrements match Rust whenever
`amount_out` does not exceed the decremented reserve. -/
def process_swap_exact_input (pool : PoolState) (amount_in minimum_amount_out : Nat)
    (is_base_input : Bool) (oracle : Oracle) : Except SwapError PoolState :=
  match get_oracle_price oracle with
  | .error e => .error e
  | .ok oracle_price =>
    let q := calculate_swap_exact_input pool amount_in is_base_input oracle_price
    let amount_out := q.1
    let fee_amount := q.2
    if amount_out < minimum_amount_out then .error .slippageExceeded
    else
      let pool1 :=
        if is_base_input then
          { pool with
            reserves_a := (pool.reserves_a + amount_in) % U64,
            reserves_b := pool.reserves_b - amount_out,
            virtual_reserves_a := (pool.virtual_reserves_a + amount_in) % U64,
            virtual_reserves_b := pool.virtual_reserves_b - amount_out,
            cumulative_fees_a := (pool.cumulative_fees_a + fee_amount) % U64 }
        else
          { pool with
            reserves_b := (pool.reserves_b + amount_in) % U64,
            reserves_a := pool.reserves_a - amount_out,
            virtual_reserves_b := (pool.virtual_reserves_b + amount_in) % U64,
            virtual_reserves_a := pool.virtual_reserves_a - amount_out,
            cumulative_fees_b := (pool.cumulative_fees_b + fee_amount) % U64 }
      if should_rebalance pool1 oracle_price then
        match perform_rebalance pool1 oracle_price with
        | some pool2 => .ok pool2
        | none => .error .mathAbort
      else .ok pool1

/-- `process_initialize_pool` from the source, restricted to the state
transition.  The source builds a fresh `PoolState` unconditionally and
serializes it over the account; it never reads the previous
`is_initialized` flag, so the incoming state is ignored. -/
def process_initialize_pool (pool : PoolState) (params : InitParams) : Except SwapError PoolState :=
  .ok {
    is_initialized := true,
    concentration_factor := params.concentration_factor,
    inventory_exponent := params.inventory_exponent,
    rebalance_threshold := params.rebalance_threshold,
    reserves_a := 0,
    reserves_b := 0,
    virtual_reserves_a := 0,
    virtual_reserves_b := 0,
    last_rebalance_price := 0,
    last_rebalance_slot := 0,
    fee_numerator := params.fee_numerator,
    fee_denominator := params.fee_denominator,
    cumulative_fees_a := 0,
    cumulative_fees_b := 0,
    oracle_staleness_threshold := params.oracle_staleness_threshold }

/-- Modelled from the spec: the exact-output path of `execute_exact_out`
(spec §4.5) computes the pre-skew effective output
`amount_out_eff = mul_div(amount_out, 10000, adj)` with `adj` the
inventory adjustment of §4.3 (clamped to `[1, 20000]`, identity when the
reference price is 0) and then runs the quote on `amount_out_eff`.  This
inverse-skew step is absent from the source's
`calculate_swap_exact_output`; the definition exists to state the claim. -/
def claimed_swap_exact_output (pool : PoolState) (amount_out : Nat) (is_base_output : Bool) (oracle_price : Nat) : Except SwapError (Nat × Nat) :=
  let adj :=
    if pool.last_rebalance_price = 0 then 10000
    else min 20000 (max 1
      (inventory_adjustment_factor pool.inventory_exponent oracle_price pool.last_rebalance_price))
  let amount_out_eff := amount_out * 10000 / adj
  calculate_swap_exact_output pool amount_out_eff is_base_output oracle_price

/-!  ## Concrete pool states used by closed statements  -/

/-- A small initialized pool: 1:1 virtual reserves of 1000, 30 bps fee,
reference price 10000 (parity), no inventory skew. -/
def basePool : PoolState := {
  is_initialized := true,
  concentration_factor := 10000,
  inventory_exponent := 0,
  rebalance_threshold := 100,
  reserves_a := 1000,
  reserves_b := 1000,
  virtual_reserves_a := 1000,
  virtual_reserves_b := 1000,
  last_rebalance_price := 10000,
  last_rebalance_slot := 0,
  fee_numerator := 30,
  fee_denominator := 10000,
  cumulative_fees_a := 0,
  cumulative_fees_b := 0,
  oracle_staleness_threshold := 10 }

/-- The pool of spec scenario 1 after deposits: one million units on each
side, so that a rebalance at oracle price 10000 (parity) should leave the
virtual reserves symmetric. -/
def rebalancePool : PoolState :=
  { basePool with virtual_reserves_a := 1000000, virtual_reserves_b := 1000000 }

/-- The pool used to exercise the inventory skew: full-strength exponent
`z = 10000`, concentrated reserves of 100, reference price 10000. -/
def skewPool : PoolState :=
  { basePool with
    inventory_exponent := 10000,
    virtual_reserves_a := 100,
    virtual_reserves_b := 100 }

/-- The pool witnessing the amended C2: moderate skew, oracle below the
reference. -/
def softSkewPool : PoolState := { basePool with inventory_exponent := 5000 }

/-- The pool used by the exact-output statements: full-strength inventory
exponent so that any skew handling would be visible. -/
def exactOutPool : PoolState := { basePool with inventory_exponent := 10000 }

/-- A healthy pool with a rebalance threshold high enough that a swap at
a wild oracle price does not trigger a rebalance. -/
def noCheckPool : PoolState := { basePool with rebalance_threshold := 20000 }

/-- A pool with a 30% fee and asymmetric reserves for the fee-formulation
witness. -/
def feePool : PoolState :=
  { basePool with virtual_reserves_b := 2000, fee_numerator := 3000 }

/-- Parameters used to overwrite the already-initialized `basePool`. -/
def freshParams : InitParams := {
  concentration_factor := 20000,
  inventory_exponent := 5000,
  rebalance_threshold := 100,
  fee_numerator := 30,
  fee_denominator := 10000,
  oracle_staleness_threshold := 10 }

/-!  ## Correctness of the Newton iteration in `integer_sqrt`  -/

/-- One Newton step from a positive iterate never falls below the true
integer square root. -/
lemma newton_ge_sqrt (n x : Nat) (hx : 0 < x) : Nat.sqrt n ≤ (x + n / x) / 2 := by
  have hq : n < (n / x + 1) * x := (Nat.div_lt_iff_lt_mul hx).mp (Nat.lt_succ_self _)
  have hsle : Nat.sqrt n * Nat.sqrt n ≤ n := Nat.sqrt_le n
  rw [Nat.le_div_iff_mul_le (by norm_num : 0 < 2)]
  by_contra hlt
  push_neg at hlt
  revert hq hlt
  generalize n / x = q
  generalize Nat.sqrt n = s at hsle ⊢
  intro hq hlt
  have hxle : x ≤ 2 * s := by omega
  have hq1 : q + 1 ≤ 2 * s - x := by omega
  have h2 : (q + 1) * x ≤ (2 * s - x) * x := Nat.mul_le_mul_right x hq1
  have h3 : (2 * s - x) * x ≤ s * s := by
    zify [hxle]
    nlinarith [sq_nonneg ((s : Int) - x)]
  omega

/-- A Newton step from an iterate strictly above the integer square root
strictly decreases it; this is the loop-variant of `integer_sqrt`. -/
lemma newton_lt_self (n x : Nat) (hx : Nat.sqrt n < x) : (x + n / x) / 2 < x := by
  have hx0 : 0 < x := Nat.lt_of_le_of_lt (Nat.zero_le _) hx
  have h1 : n < (Nat.sqrt n + 1) * x :=
    Nat.lt_of_lt_of_le (Nat.lt_succ_sqrt n) (Nat.mul_le_mul_left _ hx)
  have h2 : n / x ≤ Nat.sqrt n := by
    have := (Nat.div_lt_iff_lt_mul hx0).mpr h1
    omega
  rw [Nat.div_lt_iff_lt_mul (by norm_num : 0 < 2)]
  omega

/-- For `n ≤ 2 ^ 64 - 2` the `u64` sum `x + n / x` inside the loop never
wraps, provided the invariant `sqrt n ≤ x ≤ n` holds. -/
lemma newton_no_overflow (n x : Nat) (hs : Nat.sqrt n ≤ x) (hxn : x ≤ n)
    (hn : n ≤ U64 - 2) (hx : 0 < x) : x + n / x < U64 := by
  have hU : U64 = 18446744073709551616 := rfl
  by_cases hq : n / x ≤ 1
  · omega
  · push_neg at hq
    have hmul : n / x * x ≤ n := Nat.div_mul_le_self n x
    have h2x : 2 * x ≤ n :=
      Nat.le_trans (Nat.mul_le_mul_right x (by omega)) hmul
    have hsq : Nat.sqrt n < 4294967296 := by
      by_contra hge
      push_neg at hge
      have hbig : 4294967296 * 4294967296 ≤ Nat.sqrt n * Nat.sqrt n :=
        Nat.mul_le_mul hge hge
      have hle := Nat.sqrt_le n
      omega
    have hn0 : 0 < n := by omega
    have hs0 : 0 < Nat.sqrt n := Nat.sqrt_pos.mpr hn0
    have hdiv : n / x ≤ n / Nat.sqrt n := Nat.div_le_div_left hs hs0
    have hub : n / Nat.sqrt n ≤ Nat.sqrt n + 2 := by
      have hsucc : n < (Nat.sqrt n + 1) * (Nat.sqrt n + 1) := Nat.lt_succ_sqrt n
      have he1 : (Nat.sqrt n + 1) * (Nat.sqrt n + 1)
          = Nat.sqrt n * Nat.sqrt n + 2 * Nat.sqrt n + 1 := by ring
      have he2 : Nat.sqrt n * (Nat.sqrt n + 2)
          = Nat.sqrt n * Nat.sqrt n + 2 * Nat.sqrt n := by ring
      have h1 : n ≤ Nat.sqrt n * (Nat.sqrt n + 2) := by omega
      exact Nat.div_le_of_le_mul' h1
    omega

/-- The loop of `integer_sqrt` computes `Nat.sqrt n` from any iterate
between `sqrt n` and `n`, given fuel at least the iterate (legitimate
because the iterate strictly decreases on every executed step). -/
lemma sqrtLoop_eq (n : Nat) (hn0 : 0 < n) (hn : n ≤ U64 - 2) :
    ∀ fuel x, Nat.sqrt n ≤ x → x ≤ n → x ≤ fuel →
      sqrtLoop n fuel x ((x + n / x) % U64 / 2) = some (Nat.sqrt n) := by
  intro fuel
  induction fuel with
  | zero =>
    intro x hsx _hxn hxf
    have hs0 : 0 < Nat.sqrt n := Nat.sqrt_pos.mpr hn0
    exact absurd hxf (by omega)
  | succ fuel ih =>
    intro x hsx hxn hxf
    have hs0 : 0 < Nat.sqrt n := Nat.sqrt_pos.mpr hn0
    have hx0 : 0 < x := Nat.lt_of_lt_of_le hs0 hsx
    have hnov : x + n / x < U64 := newton_no_overflow n x hsx hxn hn hx0
    rw [Nat.mod_eq_of_lt hnov]
    have hys : Nat.sqrt n ≤ (x + n / x) / 2 := newton_ge_sqrt n x hx0
    by_cases hyx : (x + n / x) / 2 < x
    · rw [sqrtLoop, if_pos hyx, if_neg (by omega)]
      exact ih ((x + n / x) / 2) hys (by omega) (by omega)
    · have hxs : x = Nat.sqrt n := by
        by_contra hne
        exact hyx (newton_lt_self n x (by omega))
      rw [sqrtLoop, if_neg hyx, hxs]

/-- For every `n` representable in `u64` except `u64::MAX` itself,
`integer_sqrt` returns exactly `Nat.sqrt n`. -/
lemma integer_sqrt_eq (n : Nat) (hn : n ≤ U64 - 2) :
    integer_sqrt n = some (Nat.sqrt n) := by
  by_cases h0 : n = 0
  · subst h0
    decide
  · have hn0 : 0 < n := Nat.pos_of_ne_zero h0
    have hself : (n + 1) % U64 / 2 = (n + n / n) % U64 / 2 := by
      rw [Nat.div_self hn0]
    unfold integer_sqrt
    rw [if_neg h0, hself]
    exact sqrtLoop_eq n hn0 hn n n (Nat.sqrt_le_self n) Nat.le.refl Nat.le.refl

/-!  ## Claims C6 and C9: `integer_sqrt`  -/

/-- C6 (amended): for every `n` in `[0, u64::MAX - 1]`, `integer_sqrt`
returns a value `r` with `r ^ 2 ≤ n < (r + 1) ^ 2`; in particular it
returns `0` at `n = 0`.  (At `n = u64::MAX` itself the claim fails, see
the counterexample: the seed computation `x + 1` wraps to `0`.) -/
theorem isqrt_bracket (n : Nat) (h : n ≤ U64 - 2) :
    ∃ r, integer_sqrt n = some r ∧ r * r ≤ n ∧ n < (r + 1) * (r + 1) :=
  ⟨Nat.sqrt n, integer_sqrt_eq n h, Nat.sqrt_le n, Nat.lt_succ_sqrt n⟩

/-- Witness for `isqrt_bracket` at `n = 10` (the returned root is 3). -/
theorem isqrt_bracket_witness :
    ∃ r, integer_sqrt 10 = some r ∧ r * r ≤ 10 ∧ 10 < (r + 1) * (r + 1) :=
  isqrt_bracket 10 (by decide)

/-- C6 (counterexample): at `n = u64::MAX` the `u64` increment `x + 1`
wraps to `0`, the loop is entered with iterate `0`, and the division
`n / x` aborts; `integer_sqrt` produces no value, so the claimed bracket
cannot hold at this input. -/
theorem isqrt_u64_max_aborts : integer_sqrt (U64 - 1) = none := by decide

/-- C9 (amended): the loop iterate strictly decreases on every executed
step (each recursive call of `sqrtLoop` replaces `x` by a `y` with
`y < x`), so the loop always exits; `integer_sqrt` returns normally for
every `n ≤ u64::MAX - 1`.  It is not total on all of `u64`: at
`n = u64::MAX` the wrapped seed leads to a division-by-zero abort. -/
theorem isqrt_terminates (n : Nat) (h : n ≤ U64 - 2) :
    (integer_sqrt n).isSome = true := by
  rw [integer_sqrt_eq n h]
  rfl

/-- Witness for `isqrt_terminates` at `n = 7`. -/
theorem isqrt_terminates_witness : (integer_sqrt 7).isSome = true :=
  isqrt_terminates 7 (by decide)

/-- C9 (counterexample): `integer_sqrt` does not return a value at
`n = u64::MAX`, so the function is not total on `u64`. -/
theorem isqrt_u64_max_not_total : (integer_sqrt (U64 - 1)).isNone = true := by
  decide

/-!  ## Claim C1: the rebalance scaling factor  -/

/-- C1 (evaluation at the failing input): the source computes
`v_a' = sqrt_k * 10000 / sqrt_price` and `v_b' = sqrt_k * sqrt_price / 10000`
(factor 10000) instead of the claimed factor `100 = isqrt 10000`.  With
`v_a = v_b = 10 ^ 6` and oracle price 10000 we get `sqrt_k = 10 ^ 6` and
`sqrt_price = 100`, so the code produces `(10 ^ 8, 10 ^ 4)` where the
claimed formula gives `(10 ^ 6, 10 ^ 6)`; the resulting marginal price
`v_b' / v_a'` is `10 ^ -4` instead of the oracle's parity, contradicting
the function's own comment `reserves_a = sqrt(k / price)`. -/
theorem rebalance_scaling_bug :
    (perform_rebalance rebalancePool 10000).map
        (fun s => (s.virtual_reserves_a, s.virtual_reserves_b))
      = some (100000000, 10000)
    ∧ integer_sqrt (rebalancePool.virtual_reserves_a * rebalancePool.virtual_reserves_b % U64)
        = some 1000000
    ∧ integer_sqrt 10000 = some 100
    ∧ (100000000 : Nat) ≠ 1000000 * 100 / 100 := by
  refine ⟨?_, ?_, ?_, ?_⟩ <;> decide

/-!  ## Claim C2: the curve constant under a swap  -/

/-- Pure curve step over the integers: adding at least the net input to
the in-side and removing at most the raw constant-product quote from the
out-side never decreases the reserve product. -/
lemma k_core_int (rin rout a net raw out : Int)
    (h0r : 0 ≤ rin) (h0out : 0 ≤ out)
    (hnet : 0 ≤ net) (hna : net ≤ a)
    (hraw_le : raw ≤ rout)
    (hdm : raw * (rin + net) ≤ net * rout)
    (hout : out ≤ raw) :
    rin * rout ≤ (rin + a) * (rout - out) := by
  nlinarith [mul_nonneg (by linarith : (0:Int) ≤ a - net) (by linarith : (0:Int) ≤ rout - out),
             mul_nonneg (by linarith : (0:Int) ≤ rin + net) (by linarith : (0:Int) ≤ raw - out)]

/-- The constant-product quote of `calculate_swap_exact_input` never
exceeds the out-side reserve. -/
lemma raw_quote_le (rin rout net : Nat) : net * rout / (rin + net) ≤ rout := by
  rcases Nat.eq_zero_or_pos (rin + net) with h | h
  · simp [h]
  · exact Nat.div_le_of_le_mul' (Nat.mul_le_mul_right rout (Nat.le_add_left net rin))

/-- Nat form of the curve step: if the delivered output is at most the
raw quote `(amount_in - fee) * rout / (rin + (amount_in - fee))`, the
product of virtual reserves does not decrease. -/
lemma k_nondecreasing_core (rin rout amount_in fee out : Nat)
    (hout : out ≤ (amount_in - fee) * rout / (rin + (amount_in - fee))) :
    rin * rout ≤ (rin + amount_in) * (rout - out) := by
  have hna : amount_in - fee ≤ amount_in := Nat.sub_le _ _
  revert hout hna
  generalize amount_in - fee = net
  intro hout hna
  have hraw : net * rout / (rin + net) ≤ rout := raw_quote_le rin rout net
  have hdm : net * rout / (rin + net) * (rin + net) ≤ net * rout :=
    Nat.div_mul_le_self _ _
  have hout_rout : out ≤ rout := le_trans hout hraw
  zify [hout_rout]
  exact k_core_int rin rout amount_in net (net * rout / (rin + net)) out
    (Int.natCast_nonneg rin) (Int.natCast_nonneg out) (Int.natCast_nonneg net)
    (by exact_mod_cast hna)
    (by exact_mod_cast hraw)
    (by exact_mod_cast hdm)
    (by exact_mod_cast hout)

/-- When the oracle price does not exceed the reference (ratio at most
10000 bps) and the inventory exponent is at most 10000, the inventory
adjustment never increases an output that stays clear of `u64` wrap. -/
lemma inventory_adjustment_le (base z p ref : Nat)
    (hz : z ≤ 10000) (hpm : p * 10000 < U64) (hbase : base * 10000 < U64)
    (hp : p * 10000 / ref ≤ 10000) :
    apply_inventory_adjustment base z p ref ≤ base := by
  unfold apply_inventory_adjustment
  by_cases h0 : ref = 0
  · simp [h0]
  · rw [if_neg h0]
    simp only [Nat.mod_eq_of_lt hpm]
    rw [if_neg (by omega : ¬ p * 10000 / ref > 10000)]
    have ht1 : (10000 - p * 10000 / ref) * z < U64 := by
      have hb : (10000 - p * 10000 / ref) * z ≤ 10000 * 10000 :=
        Nat.mul_le_mul (Nat.sub_le 10000 _) hz
      have hU : U64 = 18446744073709551616 := rfl
      omega
    rw [Nat.mod_eq_of_lt ht1]
    have ht2 : (10000 - p * 10000 / ref) * z / 10000 ≤ 10000 := by
      have h1 : (10000 - p * 10000 / ref) * z ≤ 10000 * z :=
        Nat.mul_le_mul_right z (Nat.sub_le 10000 _)
      have h2 : (10000 - p * 10000 / ref) * z / 10000 ≤ 10000 * z / 10000 :=
        Nat.div_le_div_right h1
      have h3 : 10000 * z / 10000 = z := by omega
      omega
    have hadj : (10000 + U64 - (10000 - p * 10000 / ref) * z / 10000) % U64
        = 10000 - (10000 - p * 10000 / ref) * z / 10000 := by
      have hU : U64 = 18446744073709551616 := rfl
      have he : 10000 + U64 - (10000 - p * 10000 / ref) * z / 10000
          = U64 + (10000 - (10000 - p * 10000 / ref) * z / 10000) := by omega
      rw [he, Nat.add_mod_left]
      exact Nat.mod_eq_of_lt (by omega)
    rw [hadj]
    have hb : base * (10000 - (10000 - p * 10000 / ref) * z / 10000) < U64 :=
      Nat.lt_of_le_of_lt (Nat.mul_le_mul_left base (by omega)) hbase
    rw [Nat.mod_eq_of_lt hb]
    have hmono : base * (10000 - (10000 - p * 10000 / ref) * z / 10000) / 10000
        ≤ base * 10000 / 10000 :=
      Nat.div_le_div_right (Nat.mul_le_mul_left base (by omega))
    have hcancel : base * 10000 / 10000 = base := by omega
    omega

/-- The curve inequality for `calculate_swap_exact_input` over explicit
in/out reserves, under bounds placing every `u64` operation clear of
wrap-around and a non-increasing inventory adjustment.  The hypothesis
`fn ≤ fd` keeps `fee ≤ amount_in`, so the source's `u64` subtraction
`amount_in - fee_amount` agrees with the truncated model. -/
lemma calc_exact_input_k_le (rin rout amount_in z p ref fn fd : Nat)
    (hz : z ≤ 10000) (hpm : p * 10000 < U64) (hp : p * 10000 / ref ≤ 10000)
    (hri : rin < 4294967296) (hro : rout < 4294967296) (ha : amount_in < 4294967296)
    (hfn : fn ≤ fd) (hfd : fd ≤ 65535) :
    rin * rout ≤ (rin + amount_in) *
      (rout - apply_inventory_adjustment
        ((amount_in - amount_in * fn % U64 / fd) * rout % U64
          / ((rin + (amount_in - amount_in * fn % U64 / fd)) % U64))
        z p ref) := by
  have hU : U64 = 18446744073709551616 := rfl
  have hfee1 : amount_in * fn < U64 := by
    have : amount_in * fn ≤ 4294967296 * 65535 := Nat.mul_le_mul (by omega) (by omega)
    omega
  rw [Nat.mod_eq_of_lt hfee1]
  -- with `fn ≤ fd` the fee is at most the input, so the truncated
  -- subtraction coincides with the source's u64 subtraction
  have hfee_le : amount_in * fn / fd ≤ amount_in := by
    rcases Nat.eq_zero_or_pos fd with h0 | h0
    · simp [h0]
    · exact Nat.div_le_of_le_mul'
        (le_trans (Nat.mul_le_mul_left amount_in hfn) (Nat.le_of_eq (Nat.mul_comm _ _)))
  have hnet : amount_in - amount_in * fn / fd ≤ amount_in := Nat.sub_le _ _
  have hnum : (amount_in - amount_in * fn / fd) * rout < U64 := by
    have hb : (amount_in - amount_in * fn / fd) * rout ≤ 4294967295 * 4294967295 :=
      Nat.mul_le_mul (by omega) (by omega)
    omega
  rw [Nat.mod_eq_of_lt hnum]
  have hden : rin + (amount_in - amount_in * fn / fd) < U64 := by omega
  rw [Nat.mod_eq_of_lt hden]
  have hraw : (amount_in - amount_in * fn / fd) * rout
      / (rin + (amount_in - amount_in * fn / fd)) ≤ rout :=
    raw_quote_le rin rout _
  have hbase : ((amount_in - amount_in * fn / fd) * rout
      / (rin + (amount_in - amount_in * fn / fd))) * 10000 < U64 := by
    have : ((amount_in - amount_in * fn / fd) * rout
        / (rin + (amount_in - amount_in * fn / fd))) * 10000 ≤ 4294967296 * 10000 :=
      Nat.mul_le_mul (by omega) (Nat.le_refl 10000)
    omega
  exact k_nondecreasing_core rin rout amount_in (amount_in * fn / fd) _
    (inventory_adjustment_le _ z p ref hz hpm hbase hp)

/-- C2 (amended): the pre-rebalance swap update `k' ≥ k` holds whenever
the inventory adjustment does not increase the output — oracle price at
most the reference price in basis points and inventory exponent at most
10000 — and the reserves, the trade size and the fee configuration keep
every `u64` operation clear of wrap-around: in particular
`fee_numerator ≤ fee_denominator`, so the fee cannot exceed the input
and the source's net-input subtraction cannot wrap.  An upward skew can
strictly decrease `k`: see the counterexample. -/
theorem swap_exact_input_k_nondecreasing (pool : PoolState) (amount_in oracle_price : Nat)
    (is_base_input : Bool)
    (hz : pool.inventory_exponent ≤ 10000)
    (hpm : oracle_price * 10000 < U64)
    (hp : oracle_price * 10000 / pool.last_rebalance_price ≤ 10000)
    (hA : pool.virtual_reserves_a < 4294967296)
    (hB : pool.virtual_reserves_b < 4294967296)
    (ha : amount_in < 4294967296)
    (hfn : pool.fee_numerator ≤ pool.fee_denominator)
    (hfd : pool.fee_denominator ≤ 65535) :
    cond is_base_input pool.virtual_reserves_a pool.virtual_reserves_b *
        cond is_base_input pool.virtual_reserves_b pool.virtual_reserves_a ≤
      (cond is_base_input pool.virtual_reserves_a pool.virtual_reserves_b + amount_in) *
        (cond is_base_input pool.virtual_reserves_b pool.virtual_reserves_a -
          (calculate_swap_exact_input pool amount_in is_base_input oracle_price).1) := by
  cases is_base_input
  · exact calc_exact_input_k_le pool.virtual_reserves_b pool.virtual_reserves_a amount_in
      pool.inventory_exponent oracle_price pool.last_rebalance_price
      pool.fee_numerator pool.fee_denominator hz hpm hp hB hA ha hfn hfd
  · exact calc_exact_input_k_le pool.virtual_reserves_a pool.virtual_reserves_b amount_in
      pool.inventory_exponent oracle_price pool.last_rebalance_price
      pool.fee_numerator pool.fee_denominator hz hpm hp hA hB ha hfn hfd

/-- C2 (counterexample): with the oracle at twice the reference price and
`z = 10000`, the inventory adjustment doubles the raw quote (9 becomes
18) and the updated virtual-reserve product drops from 10000 to
`110 * 82 = 9020 < 10000`, so a successful swap can strictly decrease
`k`. -/
theorem swap_exact_input_k_decreases_cex :
    (calculate_swap_exact_input skewPool 10 true 20000).1 = 18 ∧
    (skewPool.virtual_reserves_a + 10) *
        (skewPool.virtual_reserves_b - (calculate_swap_exact_input skewPool 10 true 20000).1)
      < skewPool.virtual_reserves_a * skewPool.virtual_reserves_b := by
  refine ⟨?_, ?_⟩ <;> decide

/-- Witness for `swap_exact_input_k_nondecreasing`: concrete pool, input
10, oracle 9000 below the reference 10000. -/
theorem swap_exact_input_k_nondecreasing_witness :
    softSkewPool.virtual_reserves_a * softSkewPool.virtual_reserves_b ≤
      (softSkewPool.virtual_reserves_a + 10) *
        (softSkewPool.virtual_reserves_b -
          (calculate_swap_exact_input softSkewPool 10 true 9000).1) :=
  swap_exact_input_k_nondecreasing softSkewPool 10 9000 true (by decide) (by decide)
    (by decide) (by decide) (by decide) (by decide) (by decide) (by decide)

/-!  ## Claim C3: inventory skew on exact-output swaps  -/

/-- C3 (counterexample): with the oracle 10% above the reference and
`z = 10000`, the claimed pipeline deflates the requested output
(`amount_out_eff = 100 * 10000 / 11000 = 90`) and quotes 98 in, while
the source quotes the raw 100 out directly and returns 111 in; the code
therefore does not compute `amount_out_eff`. -/
theorem exact_output_no_inverse_skew_cex :
    calculate_swap_exact_output exactOutPool 100 true 11000 = .ok (111, 0) ∧
    claimed_swap_exact_output exactOutPool 100 true 11000 = .ok (98, 0) ∧
    calculate_swap_exact_output exactOutPool 100 true 11000
      ≠ claimed_swap_exact_output exactOutPool 100 true 11000 := by
  refine ⟨?_, ?_, ?_⟩ <;> decide

/-- C3 (amended): `calculate_swap_exact_output` applies no inventory
skew at all — its result is the direct quote on the requested
`amount_out`, independent of the oracle price, the inventory exponent and
the reference price. -/
theorem exact_output_ignores_skew_inputs (pool : PoolState) (amount_out : Nat)
    (is_base_output : Bool) (p q z r : Nat) :
    calculate_swap_exact_output pool amount_out is_base_output p =
      calculate_swap_exact_output
        { pool with inventory_exponent := z, last_rebalance_price := r }
        amount_out is_base_output q := rfl

/-!  ## Claim C4: clamping of the inventory adjustment  -/

/-- C4 (counterexample): at `base_output = 1`, `z = 30000`, oracle three
times the reference, the unclamped factor is `70000` and the function
returns `7`; any factor clamped into `[1, 20000]` could return at most
`1 * 20000 / 10000 = 2`, so no clamping takes place. -/
theorem inventory_adjustment_unclamped_cex :
    apply_inventory_adjustment 1 30000 30000 10000 = 7 ∧
    1 * 20000 / 10000 < apply_inventory_adjustment 1 30000 30000 10000 := by
  refine ⟨?_, ?_⟩ <;> decide

/-- C4 (amended): `apply_inventory_adjustment` performs no clamping and
raises no error: for a non-zero reference price it returns
`base_output * adj / 10000` with `adj` the raw (unclamped) factor
`10000 ± deviation * z / 10000`, which can exceed 20000. -/
theorem inventory_adjustment_unclamped (base z p ref : Nat) (h0 : ref ≠ 0)
    (hb : base * inventory_adjustment_factor z p ref < U64) :
    apply_inventory_adjustment base z p ref
      = base * inventory_adjustment_factor z p ref / 10000 := by
  simp only [apply_inventory_adjustment, inventory_adjustment_factor] at hb ⊢
  rw [if_neg h0]
  by_cases hgt : p * 10000 % U64 / ref > 10000
  · simp only [if_pos hgt] at hb ⊢
    rw [Nat.mod_eq_of_lt hb]
  · simp only [if_neg hgt] at hb ⊢
    rw [Nat.mod_eq_of_lt hb]

/-- Witness for `inventory_adjustment_unclamped` at `base = 3`,
`z = 5000`, oracle 20% above the reference (factor 11000, result 3). -/
theorem inventory_adjustment_unclamped_witness :
    apply_inventory_adjustment 3 5000 12000 10000
      = 3 * inventory_adjustment_factor 5000 12000 10000 / 10000 :=
  inventory_adjustment_unclamped 3 5000 12000 10000 (by decide) (by decide)

/-!  ## Claim C5: oracle staleness and validity checks  -/

/-- C5 (counterexample): a swap with oracle price `0` (claimed to fail
with `OracleInvalid`) and an arbitrarily old publish slot (claimed to
fail with `OracleStale`) succeeds and mutates the state: the source
validates neither and never reads the publish slot or any slot at all. -/
theorem zero_price_swap_succeeds_cex :
    process_swap_exact_input noCheckPool 10 0 true { price := 0, publish_slot := 0 }
      = .ok { noCheckPool with
          reserves_a := 1010, reserves_b := 991,
          virtual_reserves_a := 1010, virtual_reserves_b := 991 } := by
  decide

/-- Every run of `process_swap_exact_input` ends in a successful state, a
slippage rejection, or an arithmetic abort inside the rebalance. -/
lemma process_swap_result_shapes (pool : PoolState) (amount_in minimum_amount_out : Nat)
    (is_base_input : Bool) (oracle : Oracle) :
    (∃ s, process_swap_exact_input pool amount_in minimum_amount_out is_base_input oracle
        = .ok s) ∨
    process_swap_exact_input pool amount_in minimum_amount_out is_base_input oracle
        = .error .slippageExceeded ∨
    process_swap_exact_input pool amount_in minimum_amount_out is_base_input oracle
        = .error .mathAbort := by
  unfold process_swap_exact_input get_oracle_price
  dsimp only
  split
  · right; left; rfl
  · split <;> split <;>
      first
        | (left; exact ⟨_, rfl⟩)
        | (right; right; rfl)
        | (split <;>
            first
              | (left; exact ⟨_, rfl⟩)
              | (right; right; rfl))

/-- C5 (amended): no oracle validation exists: `get_oracle_price`
returns the raw price unconditionally, and an exact-input swap never
fails with `OracleStale` or `OracleInvalid`, whatever the price or the
age of the sample. -/
theorem no_oracle_validation (pool : PoolState) (amount_in minimum_amount_out : Nat)
    (is_base_input : Bool) (oracle : Oracle) :
    get_oracle_price oracle = .ok oracle.price ∧
    process_swap_exact_input pool amount_in minimum_amount_out is_base_input oracle
        ≠ .error .oracleStale ∧
    process_swap_exact_input pool amount_in minimum_amount_out is_base_input oracle
        ≠ .error .oracleInvalid := by
  refine ⟨rfl, ?_, ?_⟩ <;>
  · rcases process_swap_result_shapes pool amount_in minimum_amount_out is_base_input oracle
      with ⟨s, hs⟩ | hs | hs <;> simp [hs]

/-!  ## Claim C7: the exact-output fee formulations  -/

/-- The code's grossed-up total `gross + gross * fn / (fd - fn)` agrees
with the spec's `gross * fd / (fd - fn)`, and the fee is their
difference. -/
lemma exact_out_fee_core (gross fn fd : Nat) (hfn : 0 < fn) (hff : fn < fd)
    (hb : gross * fd < U64) :
    (gross + gross * fn % U64 / (fd - fn)) % U64 = gross * fd / (fd - fn)
    ∧ gross * fn % U64 / (fd - fn) = gross * fd / (fd - fn) - gross := by
  obtain ⟨c, hc⟩ : ∃ c, fd = fn + c := ⟨fd - fn, by omega⟩
  subst hc
  have hc0 : 0 < c := by omega
  have hcc : fn + c - fn = c := by omega
  rw [hcc]
  have hfn_lt : gross * fn < U64 :=
    Nat.lt_of_le_of_lt (Nat.mul_le_mul_left gross (by omega)) hb
  rw [Nat.mod_eq_of_lt hfn_lt]
  have key : gross * (fn + c) / c = gross + gross * fn / c := by
    rw [Nat.mul_add, Nat.add_mul_div_right _ _ hc0]
    omega
  have hlt : gross + gross * fn / c < U64 :=
    key ▸ Nat.lt_of_le_of_lt (Nat.div_le_self _ _) hb
  rw [Nat.mod_eq_of_lt hlt, key]
  generalize gross * fn / c = w
  omega

/-- Shape of `calculate_swap_exact_output` with explicit reserves, in the
spec's formulation. -/
lemma exact_out_spec_form (rout rin amount_out fn fd : Nat)
    (hfn : 0 < fn) (hff : fn < fd)
    (hden : rout - amount_out ≠ 0)
    (hbound : rin * amount_out * fd < U64) :
    (if rout - amount_out = 0
       then (Except.error SwapError.insufficientLiquidity : Except SwapError (Nat × Nat))
     else
       .ok ((rin * amount_out % U64 / (rout - amount_out)
              + rin * amount_out % U64 / (rout - amount_out) * fn % U64 / (fd - fn)) % U64,
            rin * amount_out % U64 / (rout - amount_out) * fn % U64 / (fd - fn)))
    = .ok (rin * amount_out / (rout - amount_out) * fd / (fd - fn),
           rin * amount_out / (rout - amount_out) * fd / (fd - fn)
             - rin * amount_out / (rout - amount_out)) := by
  rw [if_neg hden]
  have hfd0 : 0 < fd := by omega
  have hnum : rin * amount_out < U64 :=
    Nat.lt_of_le_of_lt (Nat.le_mul_of_pos_right _ hfd0) hbound
  rw [Nat.mod_eq_of_lt hnum]
  have hgross_fd : rin * amount_out / (rout - amount_out) * fd < U64 :=
    Nat.lt_of_le_of_lt (Nat.mul_le_mul_right fd (Nat.div_le_self _ _)) hbound
  obtain ⟨h1, h2⟩ := exact_out_fee_core (rin * amount_out / (rout - amount_out)) fn fd
    hfn hff hgross_fd
  rw [h1, h2]

/-- C7 (confirmed): for positive fees with `fn < fd` and intermediates in
`u64` range, the code's exact-output fee formulation
`total = gross + floor(gross * fn / (fd - fn))` coincides with the
spec's `total = floor(gross * fd / (fd - fn))`, and the returned fee is
`total - gross` in both. -/
theorem exact_output_fee_refinement (pool : PoolState) (amount_out : Nat)
    (is_base_output : Bool) (oracle_price : Nat)
    (hfn : 0 < pool.fee_numerator) (hff : pool.fee_numerator < pool.fee_denominator)
    (hden : cond is_base_output pool.virtual_reserves_a pool.virtual_reserves_b
        - amount_out ≠ 0)
    (hbound : cond is_base_output pool.virtual_reserves_b pool.virtual_reserves_a
        * amount_out * pool.fee_denominator < U64) :
    calculate_swap_exact_output pool amount_out is_base_output oracle_price =
      .ok (cond is_base_output pool.virtual_reserves_b pool.virtual_reserves_a * amount_out
            / (cond is_base_output pool.virtual_reserves_a pool.virtual_reserves_b - amount_out)
            * pool.fee_denominator / (pool.fee_denominator - pool.fee_numerator),
          cond is_base_output pool.virtual_reserves_b pool.virtual_reserves_a * amount_out
            / (cond is_base_output pool.virtual_reserves_a pool.virtual_reserves_b - amount_out)
            * pool.fee_denominator / (pool.fee_denominator - pool.fee_numerator)
          - cond is_base_output pool.virtual_reserves_b pool.virtual_reserves_a * amount_out
            / (cond is_base_output pool.virtual_reserves_a pool.virtual_reserves_b
                - amount_out)) := by
  cases is_base_output
  · exact exact_out_spec_form pool.virtual_reserves_b pool.virtual_reserves_a amount_out
      pool.fee_numerator pool.fee_denominator hfn hff hden hbound
  · exact exact_out_spec_form pool.virtual_reserves_a pool.virtual_reserves_b amount_out
      pool.fee_numerator pool.fee_denominator hfn hff hden hbound

/-- Witness for `exact_output_fee_refinement`: `gross = 222`,
`total = 317`, `fee = 95`. -/
theorem exact_output_fee_refinement_witness :
    calculate_swap_exact_output feePool 100 true 0 = .ok (317, 95) :=
  exact_output_fee_refinement feePool 100 true 0 (by decide) (by decide) (by decide)
    (by decide)

/-!  ## Claim C8: re-initialization  -/

/-- C8 (counterexample): `process_initialize_pool` on a pool whose
`is_initialized` flag is `true` does not fail with `AlreadyInitialized`
and does not leave the state unchanged: it succeeds and replaces the
state wholesale. -/
theorem reinitialize_overwrites_cex :
    basePool.is_initialized = true ∧
    process_initialize_pool basePool freshParams
      ≠ .error .alreadyInitialized ∧
    process_initialize_pool basePool freshParams ≠ .ok basePool ∧
    process_initialize_pool basePool freshParams
      = .ok { is_initialized := true, concentration_factor := 20000,
              inventory_exponent := 5000, rebalance_threshold := 100,
              reserves_a := 0, reserves_b := 0,
              virtual_reserves_a := 0, virtual_reserves_b := 0,
              last_rebalance_price := 0, last_rebalance_slot := 0,
              fee_numerator := 30, fee_denominator := 10000,
              cumulative_fees_a := 0, cumulative_fees_b := 0,
              oracle_staleness_threshold := 10 } := by
  refine ⟨?_, ?_, ?_, ?_⟩ <;> decide

/-- C8 (amended): `process_initialize_pool` performs no initialization
check: it succeeds unconditionally, ignores the incoming state entirely,
and writes a fresh state with zeroed reserves and reference price, so a
pool can be re-initialized any number of times. -/
theorem initialize_pool_unconditional (pool other : PoolState) (params : InitParams) :
    process_initialize_pool pool params = process_initialize_pool other params ∧
    ∃ s, process_initialize_pool pool params = Except.ok s ∧
      s.is_initialized = true ∧ s.reserves_a = 0 ∧ s.reserves_b = 0 ∧
      s.virtual_reserves_a = 0 ∧ s.virtual_reserves_b = 0 ∧ s.last_rebalance_price = 0 :=
  ⟨rfl, ⟨_, rfl, rfl, rfl, rfl, rfl, rfl, rfl⟩⟩

/-!  ## Claim C10: the exact-input fee never exceeds the input  -/

/-- C10 (confirmed): with `0 < fn < fd` and `amount_in * fn` in `u64`
range, the fee charged by `calculate_swap_exact_input` is
`floor(amount_in * fn / fd)` and never exceeds `amount_in`, so the net
input `amount_in - fee_amount` cannot underflow. -/
theorem exact_input_fee_bounded (pool : PoolState) (amount_in : Nat) (is_base_input : Bool)
    (oracle_price : Nat)
    (hfn : 0 < pool.fee_numerator) (hff : pool.fee_numerator < pool.fee_denominator)
    (hrange : amount_in * pool.fee_numerator < U64) :
    (calculate_swap_exact_input pool amount_in is_base_input oracle_price).2
        = amount_in * pool.fee_numerator / pool.fee_denominator ∧
    (calculate_swap_exact_input pool amount_in is_base_input oracle_price).2 ≤ amount_in := by
  have hsnd : (calculate_swap_exact_input pool amount_in is_base_input oracle_price).2
      = amount_in * pool.fee_numerator % U64 / pool.fee_denominator := by
    cases is_base_input <;> rfl
  rw [hsnd, Nat.mod_eq_of_lt hrange]
  refine ⟨rfl, Nat.div_le_of_le_mul' ?_⟩
  calc amount_in * pool.fee_numerator
      ≤ amount_in * pool.fee_denominator := Nat.mul_le_mul_left _ (by omega)
    _ = pool.fee_denominator * amount_in := Nat.mul_comm _ _

/-- Witness for `exact_input_fee_bounded` on `basePool` with input
12345: fee is 37 and is below the input. -/
theorem exact_input_fee_bounded_witness :
    (calculate_swap_exact_input basePool 12345 true 0).2
        = 12345 * basePool.fee_numerator / basePool.fee_denominator ∧
    (calculate_swap_exact_input basePool 12345 true 0).2 ≤ 12345 :=
  exact_input_fee_bounded basePool 12345 true 0 (by decide) (by decide) (by decide)

/-- The source's own `test_sqrt` unit-test values, reproduced against the
embedding. -/
theorem integer_sqrt_matches_unit_tests :
    integer_sqrt 0 = some 0 ∧ integer_sqrt 1 = some 1 ∧ integer_sqrt 4 = some 2 ∧
    integer_sqrt 100 = some 10 ∧ integer_sqrt 1000000 = some 1000 := by
  refine ⟨?_, ?_, ?_, ?_, ?_⟩ <;> decide

/-- The source's own `test_inventory_adjustment` unit-test values,
reproduced against the embedding. -/
theorem inventory_adjustment_matches_unit_tests :
    apply_inventory_adjustment 1000 5000 11000 10000 = 1050 ∧
    apply_inventory_adjustment 1000 5000 9000 10000 = 950 ∧
    apply_inventory_adjustment 1000 5000 10000 10000 = 1000 := by
  refine ⟨?_, ?_, ?_⟩ <;> decide
